import Mathlib

set_option maxRecDepth 4000

/-!
Verification of the process-exec event detection engine (pnotify).

The development shallowly embeds the repository's Go code:
* procconn.go — the binary protocol codec (`parseCnProcExec`,
  `sendSubscribe`) and the netlink receive loop (`listenProcExec`);
* the main watcher file — the orchestrator (`ProcessWatcher.run`) and
  the snapshot poller (`ProcessWatcher.runPolling`).

Byte buffers are `List Nat`, each entry a byte value; multi-byte integers
are read and written little-endian, matching `binary.NativeEndian` on the
machines the program targets.
-/

namespace PNotify

/-- Read the byte at index `i` of a buffer; out-of-range reads yield 0 and
non-byte entries are truncated to a byte, mirroring that the Go code only
ever sees byte values. -/
def byteAt (l : List Nat) (i : Nat) : Nat := l.getD i 0 % 256

/-- Little-endian 16-bit read at offset `i`. -/
def readU16 (l : List Nat) (i : Nat) : Nat :=
  byteAt l i + 256 * byteAt l (i + 1)

/-- Little-endian 32-bit read at offset `i`. -/
def readU32 (l : List Nat) (i : Nat) : Nat :=
  readU16 l i + 65536 * readU16 l (i + 2)

/-- Little-endian encoding of a 16-bit value. -/
def u16Bytes (n : Nat) : List Nat := [n % 256, n / 256 % 256]

/-- Little-endian encoding of a 32-bit value. -/
def u32Bytes (n : Nat) : List Nat :=
  [n % 256, n / 256 % 256, n / 65536 % 256, n / 16777216 % 256]

/-- Little-endian encoding of a 64-bit value. -/
def u64Bytes (n : Nat) : List Nat :=
  u32Bytes (n % 4294967296) ++ u32Bytes (n / 4294967296)

/-- Reinterpretation of a 32-bit unsigned value as Go's `int32`. -/
def toInt32 (n : Nat) : Int :=
  if n % 4294967296 < 2147483648 then ((n % 4294967296 : Nat) : Int)
  else ((n % 4294967296 : Nat) : Int) - 4294967296

-- Protocol constants from procconn.go.
def CN_IDX_PROC : Nat := 1
def CN_VAL_PROC : Nat := 1
def PROC_EVENT_EXEC : Nat := 2
def PROC_CN_MCAST_LISTEN : Nat := 1
def cnMsgHeaderSize : Nat := 20
def procEventMinSize : Nat := 24
def NLMSG_DONE : Nat := 3

/-- The connector message header (`cnMsg` in procconn.go, 20 bytes). -/
structure cnMsg where
  Idx : Nat
  Val : Nat
  Seq : Nat
  Ack : Nat
  Len : Nat
  Flags : Nat

/-- The exec-relevant fields of a process event (`procEvent` in
procconn.go, 24 bytes). -/
structure procEvent where
  What : Nat
  CPU : Nat
  Timestamp : Nat
  ExecPid : Nat
  ExecTgid : Nat

/-- Serialization of a `cnMsg` exactly as Go's
`binary.Write(_, binary.NativeEndian, cn)` lays it out: four 32-bit words
then two 16-bit words. -/
def encodeCnMsg (c : cnMsg) : List Nat :=
  u32Bytes c.Idx ++ u32Bytes c.Val ++ u32Bytes c.Seq ++ u32Bytes c.Ack ++
    u16Bytes c.Len ++ u16Bytes c.Flags

/-- Serialization of a `procEvent` as `binary.Write` lays it out: What,
CPU (32-bit), Timestamp (64-bit), ExecPid, ExecTgid (32-bit). -/
def encodeProcEvent (e : procEvent) : List Nat :=
  u32Bytes e.What ++ u32Bytes e.CPU ++ u64Bytes e.Timestamp ++
    u32Bytes e.ExecPid ++ u32Bytes e.ExecTgid

/-- Embedding of `parseCnProcExec` from procconn.go.  The Go function
checks `len(data) < cnMsgHeaderSize+procEventMinSize`, reads a 20-byte
`cnMsg` and a 24-byte `procEvent`, compares `cn.Idx`/`cn.Val` against the
process-connector constants and `ev.What` against `PROC_EVENT_EXEC`, and
returns `int32(ev.ExecPid)`.  Field offsets in the buffer: Idx 0, Val 4,
What 20, ExecPid 36.  The result type `Option Int` stands for the Go
`(int32, bool)` pair, `none` for `(0, false)`.  With at least 44 bytes
available, the two `binary.Read` calls cannot fail, so their error
branches are unreachable and not modelled. -/
def parseCnProcExec (data : List Nat) : Option Int :=
  if data.length < cnMsgHeaderSize + procEventMinSize then none
  else if readU32 data 0 ≠ CN_IDX_PROC ∨ readU32 data 4 ≠ CN_VAL_PROC then none
  else if readU32 data 20 ≠ PROC_EVENT_EXEC then none
  else some (toInt32 (readU32 data 36))

/-- Modelled from the spec: the repository has no encoder for incoming
exec frames (they are produced by the kernel), so the round-trip law's
`encodeFrame(pid)` is modelled from the spec's frame description — a
connector header carrying the matching source index/value followed by a
`procEvent` tagged `PROC_EVENT_EXEC` whose `ExecPid` is `pid`.  Sequence,
ack, flags, CPU, timestamp and tgid are fixed to benign values because
`parseCnProcExec` ignores them. -/
def encodeFrame (pid : Nat) : List Nat :=
  encodeCnMsg ⟨CN_IDX_PROC, CN_VAL_PROC, 0, 0, 24, 0⟩ ++
    encodeProcEvent ⟨PROC_EVENT_EXEC, 0, 0, pid, 0⟩

/-- Serialization of Go's `syscall.NlMsghdr` (16 bytes): Len (32-bit),
Type (16-bit), Flags (16-bit), Seq (32-bit), Pid (32-bit). -/
def encodeNlMsghdr (len ty flags seq pid : Nat) : List Nat :=
  u32Bytes len ++ u16Bytes ty ++ u16Bytes flags ++ u32Bytes seq ++ u32Bytes pid

/-- Embedding of the message built by `sendSubscribe` in procconn.go: a
connector header with `Idx = CN_IDX_PROC`, `Val = CN_VAL_PROC`, `Len = 4`
followed by the 4-byte op, wrapped in an `NlMsghdr` whose `Len` is
`16 + payload length`, `Type` is `NLMSG_DONE` and `Pid` is the sender's
pid. -/
def encodeSubscribe (op pid : Nat) : List Nat :=
  let payload := encodeCnMsg ⟨CN_IDX_PROC, CN_VAL_PROC, 0, 0, 4, 0⟩ ++ u32Bytes op
  encodeNlMsghdr (16 + payload.length) NLMSG_DONE 0 0 pid ++ payload

-- -------------------------------------------------------------------------
-- Receive loop (listenProcExec in procconn.go)
-- -------------------------------------------------------------------------

-- errno values used by the receive loop (Linux).
def EINTR : Nat := 4
def ENOBUFS : Nat := 105

/-- Outcome of one `syscall.Read` on the netlink socket, after
`syscall.ParseNetlinkMessage` has split a successful read into individual
message payloads. -/
inductive ReadResult where
  | ok (frames : List (List Nat))
  | err (e : Nat)

/-- Observable log lines emitted by the receive loop. -/
inductive LogKind where
  | enobufs
  | readError (e : Nat)
deriving DecidableEq, Repr

/-- Observable outcome of the receive loop: the pids sent on the channel,
the log lines, and whether the loop terminated (running its deferred
`syscall.Close(fd)` and `close(ch)`, which ends the stream). -/
structure RecvOutcome where
  pids : List Int
  logs : List LogKind
  closed : Bool
deriving DecidableEq, Repr

/-- Embedding of the receive loop body of `listenProcExec`: on a read
error, `EINTR` retries, `ENOBUFS` logs and continues, and any other error
logs and returns (closing socket and channel); on a successful read every
payload is given to `parseCnProcExec` and matching pids are emitted.  The
input list models the sequence of reads the kernel serves; an exhausted
input models a loop still blocked in `Read` (nothing closed).  The
non-blocking channel send's drop-on-full path and the `ctx.Done` check are
not modelled: the claims under verification do not involve channel
capacity or external cancellation. -/
def recvLoop : List ReadResult → RecvOutcome
  | [] => ⟨[], [], false⟩
  | .ok frames :: rest =>
      let o := recvLoop rest
      ⟨frames.filterMap parseCnProcExec ++ o.pids, o.logs, o.closed⟩
  | .err e :: rest =>
      if e = EINTR then recvLoop rest
      else if e = ENOBUFS then
        let o := recvLoop rest
        ⟨o.pids, .enobufs :: o.logs, o.closed⟩
      else ⟨[], [.readError e], true⟩

-- -------------------------------------------------------------------------
-- Snapshot poller (ProcessWatcher.runPolling)
-- -------------------------------------------------------------------------

/-- One tick's diff, as computed by the `for pid := range current` loop of
`runPolling`: the pids of the current snapshot that are not in `seen`. -/
def newPids (seen current : Finset Int) : Finset Int := current \ seen

/-- Embedding of the ticker loop of `runPolling` after the baseline is
seeded: each tick diffs the current snapshot against `seen`, hands the
diff to the consumer (`checkNew` is called only when the diff is
non-empty; a tick with an empty diff delivers nothing, represented by the
empty set), then replaces `seen` with the current snapshot. -/
def pollTicks : Finset Int → List (Finset Int) → List (Finset Int)
  | _, [] => []
  | seen, c :: rest => newPids seen c :: pollTicks c rest

/-- Embedding of `runPolling` on a finite snapshot sequence: the first
snapshot seeds `seen` (the baseline) and each later one is a tick. -/
def runPollingModel : List (Finset Int) → List (Finset Int)
  | [] => []
  | s0 :: rest => pollTicks s0 rest

/-- Modelled from the spec (comparison definition for the poller law):
per-tick emissions are each snapshot minus its predecessor, and the
baseline snapshot itself emits nothing. -/
def specPollEmissions (snaps : List (Finset Int)) : List (Finset Int) :=
  List.zipWith (fun prev cur => cur \ prev) snaps snaps.tail

-- -------------------------------------------------------------------------
-- Orchestrator (ProcessWatcher.run)
-- -------------------------------------------------------------------------

/-- One iteration's input to the `select` loop of `ProcessWatcher.run`:
a pid arriving on the netlink channel, the channel being closed, or an
OS stop signal. -/
inductive LoopEvent where
  | pidArrival (p : Int)
  | channelClosed
  | signal

/-- Detection mode of the engine. -/
inductive Mode where
  | eventSource
  | polling
deriving DecidableEq, Repr

/-- Result of `listenProcExec` as seen by `run`: either a live channel
(whose traffic is the list of loop events) or a connect-time error. -/
inductive ConnectResult where
  | ok (events : List LoopEvent)
  | err (e : Nat)

/-- Observable outcome of a run of the orchestrator: the pid sets handed
to `checkNew` in order, the chronological list of detection modes the run
passed through, and whether a fatal error was surfaced to the caller
(`run` returns `unit`, so this is always `false`). -/
structure RunResult where
  deliveries : List (Finset Int)
  modes : List Mode
  fatal : Bool
deriving DecidableEq

/-- Embedding of the `select` loop of `run` in netlink mode: each arriving
pid is forwarded to `checkNew` as a singleton set with no filtering or
suppression; a closed channel stops the loop and reports that the run must
fall back to polling; a signal stops the loop for good.  Returns the
deliveries made in this phase and whether fallback was triggered. -/
def forwardLoop : List LoopEvent → List (Finset Int) × Bool
  | [] => ([], false)
  | .pidArrival p :: rest =>
      let r := forwardLoop rest
      (({p} : Finset Int) :: r.1, r.2)
  | .channelClosed :: _ => ([], true)
  | .signal :: _ => ([], false)

/-- Embedding of `ProcessWatcher.run`: if `listenProcExec` fails, the
error is logged and `runPolling` is entered directly; otherwise the
netlink forwarding loop runs, and only a closed channel makes the run
continue into `runPolling`.  `run` never returns an error, so `fatal` is
`false` on every path. -/
def runModel (c : ConnectResult) (snaps : List (Finset Int)) : RunResult :=
  match c with
  | .err _ => ⟨runPollingModel snaps, [Mode.polling], false⟩
  | .ok events =>
      let r := forwardLoop events
      if r.2 then ⟨r.1 ++ runPollingModel snaps, [Mode.eventSource, Mode.polling], false⟩
      else ⟨r.1, [Mode.eventSource], false⟩

-- -------------------------------------------------------------------------
-- Helper lemmas about the byte readers
-- -------------------------------------------------------------------------

lemma byteAt_lt (l : List Nat) (i : Nat) : byteAt l i < 256 :=
  Nat.mod_lt _ (by norm_num)

lemma readU32_lt (l : List Nat) (i : Nat) : readU32 l i < 4294967296 := by
  have h1 := byteAt_lt l i
  have h2 := byteAt_lt l (i + 1)
  have h3 := byteAt_lt l (i + 2)
  have h4 := byteAt_lt l (i + 2 + 1)
  unfold readU32 readU16
  omega

lemma byteAt_take (l : List Nat) (n i : Nat) (h : i < n) :
    byteAt (l.take n) i = byteAt l i := by
  simp [byteAt, List.getD_eq_getElem?_getD, List.getElem?_take_of_lt h]

lemma readU32_take (l : List Nat) (n i : Nat) (h : i + 3 < n) :
    readU32 (l.take n) i = readU32 l i := by
  simp [readU32, readU16, byteAt_take l n i (by omega), byteAt_take l n (i + 1) (by omega),
    byteAt_take l n (i + 2) (by omega), byteAt_take l n (i + 2 + 1) (by omega)]

lemma byteAt_append_left (l rest : List Nat) (i : Nat) (h : i < l.length) :
    byteAt (l ++ rest) i = byteAt l i := by
  simp [byteAt, List.getD_eq_getElem?_getD, List.getElem?_append_left h]

lemma readU32_append_left (l rest : List Nat) (i : Nat) (h : i + 3 < l.length) :
    readU32 (l ++ rest) i = readU32 l i := by
  simp [readU32, readU16, byteAt_append_left l rest i (by omega),
    byteAt_append_left l rest (i + 1) (by omega), byteAt_append_left l rest (i + 2) (by omega),
    byteAt_append_left l rest (i + 2 + 1) (by omega)]

lemma toInt32_of_lt (n : Nat) (h : n < 2147483648) : toInt32 n = n := by
  simp [toInt32, Nat.mod_eq_of_lt (show n < 4294967296 by omega), h]

-- -------------------------------------------------------------------------
-- Helper lemmas about the encoded exec frame
-- -------------------------------------------------------------------------

lemma encodeFrame_length (pid : Nat) : (encodeFrame pid).length = 44 := by
  simp [encodeFrame, encodeCnMsg, encodeProcEvent, u32Bytes, u16Bytes, u64Bytes]

lemma readU32_encodeFrame_0 (pid : Nat) : readU32 (encodeFrame pid) 0 = 1 := by
  simp [encodeFrame, encodeCnMsg, encodeProcEvent, u32Bytes, u16Bytes, u64Bytes,
    readU32, readU16, byteAt, CN_IDX_PROC, CN_VAL_PROC, PROC_EVENT_EXEC]

lemma readU32_encodeFrame_4 (pid : Nat) : readU32 (encodeFrame pid) 4 = 1 := by
  simp [encodeFrame, encodeCnMsg, encodeProcEvent, u32Bytes, u16Bytes, u64Bytes,
    readU32, readU16, byteAt, CN_IDX_PROC, CN_VAL_PROC, PROC_EVENT_EXEC]

lemma readU32_encodeFrame_20 (pid : Nat) : readU32 (encodeFrame pid) 20 = 2 := by
  simp [encodeFrame, encodeCnMsg, encodeProcEvent, u32Bytes, u16Bytes, u64Bytes,
    readU32, readU16, byteAt, CN_IDX_PROC, CN_VAL_PROC, PROC_EVENT_EXEC]

lemma readU32_encodeFrame_36 (pid : Nat) :
    readU32 (encodeFrame pid) 36 = pid % 4294967296 := by
  simp [encodeFrame, encodeCnMsg, encodeProcEvent, u32Bytes, u16Bytes, u64Bytes,
    readU32, readU16, byteAt, CN_IDX_PROC, CN_VAL_PROC, PROC_EVENT_EXEC]
  omega

-- -------------------------------------------------------------------------
-- Helper lemmas about the poller and the orchestrator
-- -------------------------------------------------------------------------

lemma pollTicks_eq_zipWith (rest : List (Finset Int)) :
    ∀ s0, pollTicks s0 rest = List.zipWith (fun prev cur => cur \ prev) (s0 :: rest) rest := by
  induction rest with
  | nil => intro s0; rfl
  | cons c rest ih => intro s0; simp [pollTicks, newPids, ih c]

lemma forwardLoop_arrivals (ps : List Int) (tail : List LoopEvent) :
    forwardLoop (ps.map LoopEvent.pidArrival ++ tail) =
      (ps.map (fun p => ({p} : Finset Int)) ++ (forwardLoop tail).1, (forwardLoop tail).2) := by
  induction ps with
  | nil => simp
  | cons p ps ih => simp [forwardLoop, ih]

-- -------------------------------------------------------------------------
-- Claim theorems
-- -------------------------------------------------------------------------

/-- C2: for every pid in the range representable as a non-negative
`int32`, decoding a validly encoded exec frame (matching connector source
index/value `CN_IDX_PROC = 1`, `CN_VAL_PROC = 1` and the
`PROC_EVENT_EXEC` tag) returns that pid:
`parseCnProcExec (encodeFrame pid) = some pid`. -/
theorem exec_frame_roundtrip (pid : Nat) (h : pid < 2147483648) :
    parseCnProcExec (encodeFrame pid) = some pid := by
  rw [parseCnProcExec, encodeFrame_length, readU32_encodeFrame_0, readU32_encodeFrame_4,
    readU32_encodeFrame_20, readU32_encodeFrame_36]
  simp [CN_IDX_PROC, CN_VAL_PROC, PROC_EVENT_EXEC, cnMsgHeaderSize, procEventMinSize,
    Nat.mod_eq_of_lt (show pid < 4294967296 by omega), toInt32_of_lt pid h]

/-- Witness for C2 at pid 1234. -/
theorem exec_frame_roundtrip_witness :
    parseCnProcExec (encodeFrame 1234) = some 1234 :=
  exec_frame_roundtrip 1234 (by decide)

/-- C4: `parseCnProcExec` is total over arbitrary byte buffers (it is a
Lean function, so totality holds by construction) and never reads past
the end of the buffer: every buffer shorter than the minimum
header-plus-payload size of 44 bytes yields "no event" rather than an
error, and in general the result depends only on the first 44 bytes, so
no byte beyond them — in particular none past the buffer end — is ever
examined. -/
theorem parse_total_bounded (data : List Nat) :
    (data.length < 44 → parseCnProcExec data = none) ∧
    parseCnProcExec data = parseCnProcExec (data.take 44) := by
  constructor
  · intro h
    simp [parseCnProcExec, cnMsgHeaderSize, procEventMinSize, h]
  · by_cases h : data.length < 44
    · rw [List.take_of_length_le (by omega)]
    · have ht : (data.take 44).length = 44 := by
        simp [List.length_take]
        omega
      rw [parseCnProcExec, parseCnProcExec, ht,
        readU32_take data 44 0 (by omega), readU32_take data 44 4 (by omega),
        readU32_take data 44 20 (by omega), readU32_take data 44 36 (by omega),
        if_neg (show ¬ data.length < cnMsgHeaderSize + procEventMinSize by
          simp only [cnMsgHeaderSize, procEventMinSize]; omega),
        if_neg (show ¬ (44 : Nat) < cnMsgHeaderSize + procEventMinSize by
          simp [cnMsgHeaderSize, procEventMinSize])]

/-- Witness for C4: the zero-length buffer yields no event. -/
theorem parse_total_bounded_witness : parseCnProcExec [] = none :=
  (parse_total_bounded []).1 (by decide)

/-- C5: `parseCnProcExec` fails closed: it returns "no event" whenever the
connector source index/value differ from `(CN_IDX_PROC, CN_VAL_PROC)` or
the event-type word is not `PROC_EVENT_EXEC`, however well-formed the rest
of the frame is, and it returns a pid only when the length, index/value
and exec-tag checks all pass. -/
theorem parse_fails_closed (data : List Nat) :
    ((readU32 data 0 ≠ CN_IDX_PROC ∨ readU32 data 4 ≠ CN_VAL_PROC) →
      parseCnProcExec data = none) ∧
    (readU32 data 20 ≠ PROC_EVENT_EXEC → parseCnProcExec data = none) ∧
    (∀ pid, parseCnProcExec data = some pid →
      44 ≤ data.length ∧ readU32 data 0 = CN_IDX_PROC ∧ readU32 data 4 = CN_VAL_PROC ∧
      readU32 data 20 = PROC_EVENT_EXEC ∧ pid = toInt32 (readU32 data 36)) := by
  refine ⟨?_, ?_, ?_⟩
  · intro h
    simp [parseCnProcExec, h]
  · intro h
    simp [parseCnProcExec, h]
  · intro pid hp
    unfold parseCnProcExec at hp
    split_ifs at hp with h1 h2 h3
    push_neg at h2
    have hpid := Option.some.inj hp
    refine ⟨by simpa [cnMsgHeaderSize, procEventMinSize] using Nat.le_of_not_lt h1,
      h2.1, h2.2, not_not.mp h3, hpid.symm⟩

/-- Witness for C5: an otherwise well-formed 44-byte frame whose
event-type word is 1 (a fork event, not exec) is rejected. -/
theorem parse_fails_closed_witness :
    parseCnProcExec (encodeCnMsg ⟨1, 1, 0, 0, 24, 0⟩ ++ encodeProcEvent ⟨1, 0, 0, 5, 0⟩)
      = none :=
  (parse_fails_closed _).2.1 (by decide)

/-- C6: the receive loop of `listenProcExec` classifies read failures into
exactly three behaviours: `EINTR` is retried with an outcome identical to
the loop without that read (no event loss, no log); `ENOBUFS` adds an
observable log line and continues with no event loss; any other errno is
terminal — no further events are delivered, the error is logged and the
loop terminates, running its deferred socket close and channel close so
the caller sees end-of-stream. -/
theorem recv_error_classification :
    (∀ rest : List ReadResult, recvLoop (.err EINTR :: rest) = recvLoop rest) ∧
    (∀ rest : List ReadResult,
      recvLoop (.err ENOBUFS :: rest) =
        ⟨(recvLoop rest).pids, .enobufs :: (recvLoop rest).logs, (recvLoop rest).closed⟩) ∧
    (∀ e : Nat, ∀ rest : List ReadResult, e ≠ EINTR → e ≠ ENOBUFS →
      recvLoop (.err e :: rest) = ⟨[], [.readError e], true⟩) := by
  refine ⟨fun rest => by simp [recvLoop, EINTR, ENOBUFS],
    fun rest => by simp [recvLoop, EINTR, ENOBUFS],
    fun e rest h1 h2 => by simp [recvLoop, h1, h2]⟩

/-- Witness for C6: errno 5 (EIO) is terminal even with more reads
pending, and the stream ends (`closed = true`). -/
theorem recv_error_classification_witness :
    recvLoop [.err 5, .ok [encodeFrame 9]] = ⟨[], [.readError 5], true⟩ :=
  recv_error_classification.2.2 5 [.ok [encodeFrame 9]] (by decide) (by decide)

/-- C7: for every connect-time failure of `listenProcExec`, `run` reaches
polling mode without surfacing a fatal error: the failure is absorbed
(only logged), the poller is started, and the deliveries are exactly the
poller's baseline-then-diff emissions. -/
theorem connect_failure_fallback (e : Nat) (snaps : List (Finset Int)) :
    (runModel (.err e) snaps).fatal = false ∧
    (runModel (.err e) snaps).modes = [Mode.polling] ∧
    (runModel (.err e) snaps).deliveries = specPollEmissions snaps := by
  refine ⟨rfl, rfl, ?_⟩
  show runPollingModel snaps = _
  cases snaps with
  | nil => rfl
  | cons s0 rest => simpa [runPollingModel, specPollEmissions] using pollTicks_eq_zipWith rest s0

/-- C8: in every run of the orchestrator the mode trace is one of
`[polling]`, `[eventSource]` or `[eventSource, polling]`: the transition
from event-source mode to polling happens at most once, is
one-directional, and once in polling mode the run stays there until it
stops. -/
theorem fallback_one_directional (c : ConnectResult) (snaps : List (Finset Int)) :
    (runModel c snaps).modes = [Mode.polling] ∨
    (runModel c snaps).modes = [Mode.eventSource] ∨
    (runModel c snaps).modes = [Mode.eventSource, Mode.polling] := by
  cases c with
  | err e => left; rfl
  | ok events =>
      by_cases h : (forwardLoop events).2
      · right; right; simp [runModel, h]
      · right; left; simp [runModel, h]

/-- C3: the first snapshot only seeds the baseline and is never reported;
every later tick emits exactly the current snapshot minus the previous
one.  In particular, on the spec's example sequence with baseline
`{1, 2}`, then `{1, 2, 7, 9}`, then `{1, 2, 9}`, the emissions are
`{7, 9}` and then nothing — departures are never reported. -/
theorem poller_emissions_correct :
    (∀ snaps : List (Finset Int), runPollingModel snaps = specPollEmissions snaps) ∧
    (∀ s0 : Finset Int, runPollingModel [s0] = []) ∧
    runPollingModel [{1, 2}, {1, 2, 7, 9}, {1, 2, 9}] = [{7, 9}, ∅] := by
  refine ⟨?_, ?_, by decide⟩
  · intro snaps
    cases snaps with
    | nil => rfl
    | cons s0 rest => simpa [runPollingModel, specPollEmissions] using pollTicks_eq_zipWith rest s0
  · intro s0; rfl

/-- C1 counterexample: the orchestrator performs no duplicate
suppression.  Delivering pid 42 twice in immediate succession — certainly
within any "few seconds" suppression window — produces two deliveries to
the consumer, not one. -/
theorem dedup_counterexample :
    (runModel (.ok [.pidArrival 42, .pidArrival 42, .signal]) []).deliveries = [{42}, {42}] ∧
    (runModel (.ok [.pidArrival 42, .pidArrival 42, .signal]) []).deliveries.length ≠ 1 := by
  decide

/-- C1 (amended): the orchestrator keeps no recently-seen set and applies
no suppression window: every pid received from the event stream is
forwarded to the consumer as its own delivery, duplicates included. -/
theorem no_dedup (ps : List Int) :
    (runModel (.ok (ps.map LoopEvent.pidArrival ++ [LoopEvent.signal])) []).deliveries
      = ps.map (fun p => ({p} : Finset Int)) := by
  simp [runModel, forwardLoop_arrivals, forwardLoop, runPollingModel]

/-- C9: for every op code (and sender pid), the encoded subscribe message
is 40 bytes: a 16-byte netlink header whose length field is 40 and whose
type is `NLMSG_DONE`, a 20-byte connector sub-header carrying source
index 1, source value 1 and payload length 4, and a final 4-byte op code,
all little-endian (the host byte order of the program's targets). -/
theorem subscribe_layout (op pid : Nat) :
    (encodeSubscribe op pid).length = 40 ∧
    readU32 (encodeSubscribe op pid) 0 = 40 ∧
    readU16 (encodeSubscribe op pid) 4 = NLMSG_DONE ∧
    readU32 (encodeSubscribe op pid) 16 = CN_IDX_PROC ∧
    readU32 (encodeSubscribe op pid) 20 = CN_VAL_PROC ∧
    readU16 (encodeSubscribe op pid) 32 = 4 ∧
    readU32 (encodeSubscribe op pid) 36 = op % 4294967296 := by
  set_option linter.unnecessarySeqFocus false in
  refine ⟨?_, ?_, ?_, ?_, ?_, ?_, ?_⟩ <;>
    simp [encodeSubscribe, encodeNlMsghdr, encodeCnMsg, u32Bytes, u16Bytes,
      readU32, readU16, byteAt, CN_IDX_PROC, CN_VAL_PROC, NLMSG_DONE] <;>
    omega

/-- C10: every buffer of length at least 44 whose connector header
carries index 1 and value 1 and whose event-type word is the exec tag is
accepted, and the returned identifier is the ExecPid word reinterpreted
as a signed 32-bit integer — regardless of the header's declared payload
length (offset 32 is unconstrained) and of any trailing bytes; the result
is 0 when ExecPid is 0 and negative when ExecPid is at least 2^31. -/
theorem parse_well_formed (data : List Nat) (hlen : 44 ≤ data.length)
    (h0 : readU32 data 0 = CN_IDX_PROC) (h4 : readU32 data 4 = CN_VAL_PROC)
    (h20 : readU32 data 20 = PROC_EVENT_EXEC) :
    parseCnProcExec data = some (toInt32 (readU32 data 36)) ∧
    (∀ rest, parseCnProcExec (data ++ rest) = parseCnProcExec data) ∧
    (readU32 data 36 = 0 → parseCnProcExec data = some 0) ∧
    (2147483648 ≤ readU32 data 36 → ∃ p, parseCnProcExec data = some p ∧ p < 0) := by
  have base : parseCnProcExec data = some (toInt32 (readU32 data 36)) := by
    rw [parseCnProcExec, if_neg (by simp [cnMsgHeaderSize, procEventMinSize]; omega),
      if_neg (by simp [h0, h4]), if_neg (by simp [h20])]
  refine ⟨base, ?_, ?_, ?_⟩
  · intro rest
    have hL : parseCnProcExec (data ++ rest) = some (toInt32 (readU32 data 36)) := by
      rw [parseCnProcExec,
        readU32_append_left data rest 0 (by omega), readU32_append_left data rest 4 (by omega),
        readU32_append_left data rest 20 (by omega), readU32_append_left data rest 36 (by omega),
        if_neg (show ¬ (data ++ rest).length < cnMsgHeaderSize + procEventMinSize by
          simp only [cnMsgHeaderSize, procEventMinSize, List.length_append]; omega),
        if_neg (by simp [h0, h4]), if_neg (by simp [h20])]
    rw [hL, base]
  · intro h36
    rw [base, h36]
    simp [toInt32]
  · intro h36
    have hub := readU32_lt data 36
    refine ⟨toInt32 (readU32 data 36), base, ?_⟩
    rw [toInt32, Nat.mod_eq_of_lt hub, if_neg (by omega)]
    have : ((readU32 data 36 : Nat) : Int) < 4294967296 := by exact_mod_cast hub
    omega

/-- Witness for C10: a frame whose ExecPid word is 0 is accepted (Len
field and trailing content notwithstanding) and decodes to pid 0. -/
theorem parse_well_formed_witness : parseCnProcExec (encodeFrame 0) = some 0 :=
  (parse_well_formed (encodeFrame 0) (by decide) (by decide) (by decide)
    (by decide)).2.2.1 (by decide)

end PNotify
